import Mathlib

/-!
# AmericaScouted — verification of the weekly aggregation / reconciliation engine

Shallow embedding of the cumulative aggregation and reconciliation pipeline of
the AmericaScouted repository (`app.py`, `weekly_player_data.py`):

* weekly player snapshot rows and the cumulative player aggregation
  (`AmericaScoutedApp.load_cumulative_data`),
* the division/conference reconciliation performed in the `/players` route,
* the match aggregation (`AmericaScoutedApp.load_match_data`) with its
  `boxscore_id` dedup and the conference-based division recompute,
* the team page win/draw/loss record (`team_page`),
* score display formatting (`AmericaScoutedApp.clean_score`),
* the scraper's position plurality vote
  (`dominant_position_single`, `compute_dominant_position_over_games`).

CSV cells that pandas may read as NaN are modelled as `Option` values
(`none` = missing/NaN).  `pd.to_numeric(..., errors='coerce').fillna(0)`
becomes `Option.getD 0`.  Row order inside a pandas group follows the
concatenation order of the weekly files, exactly as in the source.

String primitives (case mapping, trimming, lexicographic comparison) are
re-implemented on `List Char` so that every definition evaluates by kernel
reduction; they agree with the Python operations on the ASCII data these
pipelines process.
-/

/-! ## String primitives -/

/-- Python string `<=`: lexicographic comparison by code point. -/
def charsLe : List Char → List Char → Bool
  | [], _ => true
  | _ :: _, [] => false
  | a :: as, b :: bs =>
    if a.toNat < b.toNat then true
    else if a.toNat = b.toNat then charsLe as bs
    else false

/-- Python `a <= b` on strings. -/
def pyStrLe (a b : String) : Bool :=
  charsLe a.data b.data

/-- Python `str.strip()` (default whitespace). -/
def trimStr (s : String) : String :=
  String.mk (((s.data.dropWhile Char.isWhitespace).reverse.dropWhile Char.isWhitespace).reverse)

/-- Python `str.lower()` (ASCII range). -/
def lowerStr (s : String) : String :=
  String.mk (s.data.map Char.toLower)

/-- Python `str.upper()` (ASCII range). -/
def upperStr (s : String) : String :=
  String.mk (s.data.map Char.toUpper)

/-! ## Player snapshot rows and the cumulative aggregation -/

/-- The eleven counting-stat columns that `load_cumulative_data` coerces to
numeric and sums (the `numeric_cols` list in `app.py`). -/
inductive StatCol
  | matchesPlayed
  | minutesPlayed
  | goals
  | assists
  | shots
  | shotsOnTarget
  | yellowCards
  | redCards
  | saves
  | goalsAgainst
  | foulsWon
deriving DecidableEq, Fintype

/-- Raw counting-stat cells of one player snapshot row, as parsed by
`pd.to_numeric(..., errors='coerce')`: `none` models a missing or
unparseable cell (NaN after coercion). -/
structure PStats where
  matchesPlayed : Option Int
  minutesPlayed : Option Int
  goals : Option Int
  assists : Option Int
  shots : Option Int
  shotsOnTarget : Option Int
  yellowCards : Option Int
  redCards : Option Int
  saves : Option Int
  goalsAgainst : Option Int
  foulsWon : Option Int
deriving DecidableEq

def PStats.cell (s : PStats) : StatCol → Option Int
  | .matchesPlayed => s.matchesPlayed
  | .minutesPlayed => s.minutesPlayed
  | .goals => s.goals
  | .assists => s.assists
  | .shots => s.shots
  | .shotsOnTarget => s.shotsOnTarget
  | .yellowCards => s.yellowCards
  | .redCards => s.redCards
  | .saves => s.saves
  | .goalsAgainst => s.goalsAgainst
  | .foulsWon => s.foulsWon

/-- One row of a weekly player snapshot CSV
(`{gender}s_players_{YYYYMMDD}.csv`).  `dominantPosition` is the
`Dominant Position` column written by the weekly scraper. -/
structure PlayerRow where
  name : String
  team : String
  gender : String
  division : Option String
  dominantPosition : Option String
  stats : PStats
deriving DecidableEq

/-- `pd.to_numeric(...).fillna(0)`: missing/unparseable stat cells count 0. -/
def statVal (r : PlayerRow) (c : StatCol) : Int :=
  (r.stats.cell c).getD 0

/-- The group-by key of `load_cumulative_data`:
`['Name', 'Team', 'Gender', 'Division']`. -/
structure PKey where
  name : String
  team : String
  gender : String
  division : String
deriving DecidableEq

/-- Group key of a snapshot row.  pandas `groupby` silently drops rows whose
`Division` key cell is NaN (`dropna=True` default), hence `none` there. -/
def rowKey (r : PlayerRow) : Option PKey :=
  r.division.map (fun d => { name := r.name, team := r.team, gender := r.gender, division := d })

/-- One cached entry of `available_weeks` together with the snapshot file
contents for each gender: `files g = none` models a missing
`{g}s_players_{code}.csv` file (silently skipped by the loader). -/
structure Week where
  code : String
  files : String → Option (List PlayerRow)

/-- The union step of `load_cumulative_data`: concatenate, in cache order, the
rows of every weekly file whose code is `<= end_week_code` (Python string
compare, safe for fixed-width `YYYYMMDD`), skipping missing files. -/
def combinedRows (weeks : List Week) (endCode gender : String) : List PlayerRow :=
  match weeks with
  | [] => []
  | w :: ws =>
    (if pyStrLe w.code endCode then (w.files gender).getD [] else []) ++
      combinedRows ws endCode gender

/-- First-occurrence deduplication (with an accumulator of already-seen
elements), used to enumerate the group keys. -/
def firstDedupAux {α : Type} [DecidableEq α] (seen : List α) : List α → List α
  | [] => []
  | a :: rest =>
    if a ∈ seen then firstDedupAux seen rest
    else a :: firstDedupAux (a :: seen) rest

def firstDedup {α : Type} [DecidableEq α] (l : List α) : List α :=
  firstDedupAux [] l

/-- The distinct group keys of the combined rows (rows with a NaN `Division`
carry no key and are dropped, as pandas `groupby` does). -/
def keysOf (rows : List PlayerRow) : List PKey :=
  firstDedup (rows.filterMap rowKey)

/-- `groupby(...)[col].sum()` for one key and one counting-stat column. -/
def sumStat (rows : List PlayerRow) (k : PKey) (c : StatCol) : Int :=
  ((rows.filter (fun r => decide (rowKey r = some k))).map (fun r => statVal r c)).sum

/-- `combined_df.groupby(group_cols)['Dominant Position'].last()`: the last
non-null `Dominant Position` cell of the group, in concatenation order
(pandas `GroupBy.last` skips nulls). -/
def lastDominantPosition (rows : List PlayerRow) (k : PKey) : Option String :=
  ((rows.filter (fun r => decide (rowKey r = some k))).filterMap PlayerRow.dominantPosition).getLast?

/-- Summed counting stats of one aggregated player row. -/
structure AggStats where
  matchesPlayed : Int
  minutesPlayed : Int
  goals : Int
  assists : Int
  shots : Int
  shotsOnTarget : Int
  yellowCards : Int
  redCards : Int
  saves : Int
  goalsAgainst : Int
  foulsWon : Int
deriving DecidableEq

def AggStats.get (s : AggStats) : StatCol → Int
  | .matchesPlayed => s.matchesPlayed
  | .minutesPlayed => s.minutesPlayed
  | .goals => s.goals
  | .assists => s.assists
  | .shots => s.shots
  | .shotsOnTarget => s.shotsOnTarget
  | .yellowCards => s.yellowCards
  | .redCards => s.redCards
  | .saves => s.saves
  | .goalsAgainst => s.goalsAgainst
  | .foulsWon => s.foulsWon

/-- One row of the DataFrame returned by `load_cumulative_data`. -/
structure AggRow where
  name : String
  team : String
  gender : String
  division : Option String
  stats : AggStats
  points : Int
  dominantPosition : Option String
deriving DecidableEq

/-- Build the aggregated row of one group: summed stats, the derived
`Points = Goals*2 + Assists` column, and the merged-back
`Dominant Position` (last non-null weekly value). -/
def mkAgg (rows : List PlayerRow) (k : PKey) : AggRow :=
  { name := k.name
    team := k.team
    gender := k.gender
    division := some k.division
    stats :=
      { matchesPlayed := sumStat rows k .matchesPlayed
        minutesPlayed := sumStat rows k .minutesPlayed
        goals := sumStat rows k .goals
        assists := sumStat rows k .assists
        shots := sumStat rows k .shots
        shotsOnTarget := sumStat rows k .shotsOnTarget
        yellowCards := sumStat rows k .yellowCards
        redCards := sumStat rows k .redCards
        saves := sumStat rows k .saves
        goalsAgainst := sumStat rows k .goalsAgainst
        foulsWon := sumStat rows k .foulsWon }
    points := sumStat rows k .goals * 2 + sumStat rows k .assists
    dominantPosition := lastDominantPosition rows k }

/-- `AmericaScoutedApp.load_cumulative_data(end_week_code, gender)`:
union all weekly files with code `<= end_week_code`, group by
(Name, Team, Gender, Division), sum the counting stats, derive Points and
attach the last non-null weekly `Dominant Position` per group.
No loadable data yields the empty result. -/
def load_cumulative_data (weeks : List Week) (endCode gender : String) : List AggRow :=
  let rows := combinedRows weeks endCode gender
  (keysOf rows).map (mkAgg rows)

/-! ## Match aggregation (`AmericaScoutedApp.load_match_data`) -/

/-- One row of a weekly match snapshot CSV (`matches_{YYYYMMDD}.csv`).
All cells are nullable (`none` = missing/NaN).  Scores and shot counts are
integral in the data; `clean_score` formatting of the raw cell is modelled
separately. -/
structure MatchRow where
  gender : Option String
  division : Option String
  home_team_short : Option String
  home_team_full : Option String
  away_team_short : Option String
  away_team_full : Option String
  home_team_score : Option Int
  away_team_score : Option Int
  home_shots : Option Int
  away_shots : Option Int
  home_sot : Option Int
  away_sot : Option Int
  home_conference : Option String
  away_conference : Option String
  boxscore_id : Option String
deriving DecidableEq

/-- The authoritative conference → division lookup table.  The identical dict
literal appears twice in `app.py` (`conf_map` in `load_match_data` and
`conference_division_map` in the `/players` route).  The key `'ind'` is
written in both the D2 section (value `'d2'`) and the D3 section (value
`'d3'`) of the Python literal; in a Python dict the later binding wins, so
the effective table maps `'ind'` to `'d3'` and it is listed here once. -/
def conference_division_map : List (String × String) :=
  [("acc", "d1"), ("america east", "d1"), ("american", "d1"), ("asun", "d1"), ("atlantic 10", "d1"),
   ("big east", "d1"), ("big south", "d1"), ("big ten", "d1"), ("big west", "d1"), ("caa", "d1"),
   ("cusa", "d1"), ("di independent", "d1"), ("horizon", "d1"), ("ivy league", "d1"), ("maac", "d1"),
   ("mvc", "d1"), ("nec", "d1"), ("ovc", "d1"), ("patriot", "d1"), ("socon", "d1"), ("summit league", "d1"),
   ("sun belt", "d1"), ("wac", "d1"), ("wcc", "d1"),
   ("cacc", "d2"), ("ccaa", "d2"), ("conference carolinas", "d2"), ("dii independent", "d2"), ("ecc", "d2"),
   ("g-mac", "d2"), ("gac", "d2"), ("gliac", "d2"), ("glvc", "d2"), ("great northwest", "d2"), ("gulf south", "d2"),
   ("ind", "d3"), ("lone star", "d2"), ("mec", "d2"), ("ne10", "d2"), ("pacwest", "d2"), ("peach belt", "d2"),
   ("psac", "d2"), ("rmac", "d2"), ("sac", "d2"), ("sunshine state", "d2"),
   ("amcc", "d3"), ("american rivers", "d3"), ("asc", "d3"), ("atlantic east", "d3"), ("c2c", "d3"),
   ("cciw", "d3"), ("ccs", "d3"), ("centennial", "d3"), ("cne", "d3"), ("cunyac", "d3"),
   ("diii independent", "d3"), ("empire 8", "d3"), ("great northeast", "d3"), ("hcac", "d3"),
   ("landmark", "d3"), ("liberty league", "d3"), ("little east", "d3"), ("mac commonwealth", "d3"),
   ("mac freedom", "d3"), ("mascac", "d3"), ("miac", "d3"), ("michigan intercol. ath. assn.", "d3"),
   ("mwc", "d3"), ("nacc", "d3"), ("ncac", "d3"), ("necc", "d3"), ("nescac", "d3"), ("newmac", "d3"),
   ("njac", "d3"), ("non-ncaa org", "d3"), ("north atlantic", "d3"), ("nwc", "d3"), ("oac", "d3"),
   ("odac", "d3"), ("pac", "d3"), ("saa", "d3"), ("scac", "d3"), ("sciac", "d3"), ("skyline", "d3"),
   ("sliac", "d3"), ("sunyac", "d3"), ("uaa", "d3"), ("umac", "d3"), ("united east", "d3"),
   ("usa south", "d3"), ("wiac", "d3")]

/-- `.astype(str).str.strip().str.lower()` applied to a conference cell:
a NaN cell renders as the string `"nan"`, which is not in the table, so a
missing conference can never map.  -/
def normConf : Option String → String
  | none => "nan"
  | some s => lowerStr (trimStr s)

/-- The recomputed `division` value of one match row: the common mapped
division when both sides' conferences map and agree, blank otherwise
(`new_div` defaults to `''` and is only set on `same_mask`). -/
def recomputedDivision (hc ac : Option String) : String :=
  match (conference_division_map.lookup (normConf hc),
         conference_division_map.lookup (normConf ac)) with
  | (some a, some b) => if a = b then a else ""
  | _ => ""

/-- Overwrite the scraped `division` column of a row with the recomputed
value. -/
def recomputeDivisionRow (r : MatchRow) : MatchRow :=
  { r with division := some (recomputedDivision r.home_conference r.away_conference) }

/-- The per-file gender filter:
`df[df['gender'].str.lower() == gender.lower()]` (a NaN gender cell never
compares equal, so the row is dropped). -/
def genderFilter (gender : String) (rows : List MatchRow) : List MatchRow :=
  rows.filter (fun r =>
    match r.gender with
    | some g => decide (lowerStr g = lowerStr gender)
    | none => false)

/-- `drop_duplicates(subset=['boxscore_id'], keep='first')`, keyed by the raw
cell value (pandas treats NaN ids as duplicates of each other, matching the
`Option String` key). `seen` is the accumulator of ids already kept. -/
def dedupByBoxscoreId (seen : List (Option String)) : List MatchRow → List MatchRow
  | [] => []
  | r :: rest =>
    if r.boxscore_id ∈ seen then dedupByBoxscoreId seen rest
    else r :: dedupByBoxscoreId (r.boxscore_id :: seen) rest

/-- `AmericaScoutedApp.load_match_data(gender)`: concatenate every available
weekly match file (gender-filtered), deduplicate by `boxscore_id` keeping
the first occurrence, then overwrite `division` from the two sides'
conferences. -/
def load_match_data (files : List (List MatchRow)) (gender : String) : List MatchRow :=
  let combined := (files.map (genderFilter gender)).flatten
  (dedupByBoxscoreId [] combined).map recomputeDivisionRow

/-! ## Division/conference reconciliation (the `/players` route) -/

/-- The manual team → division override table (`division_corrections`). -/
def division_corrections (team : String) : Option String :=
  if team = "Westmont" then some "d2" else none

/-- Step (a) of the reconciliation:
`division_corrections.get(r['Team'], r['Division'])` — the override, when
present, replaces whatever division the aggregation produced. -/
def overriddenDivision (team : String) (division : Option String) : Option String :=
  match division_corrections team with
  | some d => some d
  | none => division

/-- One `add_mapping` call while building `team_to_conf`: skip null names,
null or empty conferences, strip the team name, and keep the first mapping
seen for a name. -/
def addMapping (m : List (String × String)) (teamName conf : Option String) : List (String × String) :=
  match teamName, conf with
  | some n, some c =>
    if c = "" then m
    else if (m.lookup (trimStr n)).isSome then m
    else m ++ [(trimStr n, c)]
  | _, _ => m

/-- Build the team name → conference mapping from the aggregated match rows
(home short, home full, away short, away full — in row order, first mapping
wins).  The aggregated player frame has no `Conference` column, so the
`/players` route always derives it this way. -/
def buildTeamToConf (ms : List MatchRow) : List (String × String) :=
  ms.foldl
    (fun m row =>
      addMapping
        (addMapping
          (addMapping
            (addMapping m row.home_team_short row.home_conference)
            row.home_team_full row.home_conference)
          row.away_team_short row.away_conference)
        row.away_team_full row.away_conference)
    []

/-- Steps (a)–(c) of the division reconciliation applied to one aggregated
player row, given the derived team → conference mapping:
manual override, then conference → division overwrite where a mapping
exists, then the `'naia'` fallback (`fillna`) on rows with an unknown /
missing / blank conference and a still-null division, then
`.str.lower()`. -/
def reconcileDivision (teamToConf : List (String × String)) (team : String)
    (division : Option String) : Option String :=
  let div1 := overriddenDivision team division
  let conf := teamToConf.lookup team
  let mapped := conference_division_map.lookup (normConf conf)
  -- only overwrite when a mapping exists
  let div2 := match mapped with
    | some m => some m
    | none => div1
  -- the unknown_mask (conference not in the table, NaN, or blank) is
  -- equivalent to `mapped = none`: a NaN cell renders as "nan" and a blank
  -- one as "", neither of which is a table key
  let div3 := if mapped = none ∧ div2 = none then some "naia" else div2
  div3.map lowerStr

/-- The `/players` route up to the end of reconciliation: aggregate
cumulatively, then rewrite each row's `Division` (rows are never re-merged
afterwards). -/
def playersReconciled (weeks : List Week) (endCode gender : String)
    (matchFiles : List (List MatchRow)) : List AggRow :=
  let df := load_cumulative_data weeks endCode gender
  let teamToConf := buildTeamToConf (load_match_data matchFiles gender)
  df.map (fun r => { r with division := reconcileDivision teamToConf r.team r.division })

/-! ## Team page (`team_page`): slug matching and the win/draw/loss record -/

/-- Collapse every run of whitespace to a single space
(`re.sub(r"\s+", " ", name)`); `prevWs` records whether the previous
character was whitespace. -/
def collapseWsAux (prevWs : Bool) : List Char → List Char
  | [] => []
  | c :: rest =>
    if c.isWhitespace then
      if prevWs then collapseWsAux true rest
      else ' ' :: collapseWsAux true rest
    else c :: collapseWsAux false rest

/-- Characters kept by the scraper slug: the regex class
`[A-Za-z0-9.\- _()&']`. -/
def slugKeep (c : Char) : Bool :=
  c.isAlphanum || c == '.' || c == '-' || c == ' ' || c == '_' || c == '(' || c == ')' || c == '&' || c == '\''

/-- `_slugify`: collapse whitespace and strip, `/` → `-`, drop characters
outside the allowed class, spaces → underscores. -/
def slugify (name : String) : String :=
  if name = "" then ""
  else
    let s1 := (trimStr (String.mk (collapseWsAux false name.data))).data
    let s2 := s1.map (fun c => if c = '/' then '-' else c)
    let s3 := s2.filter slugKeep
    String.mk (s3.map (fun c => if c = ' ' then '_' else c))

/-- Python `a or b` on the (string-or-missing) name cells used by
`team_page`: `None` and `''` are falsy.  (A float NaN cell — which Python
treats as truthy — is outside this model.) -/
def pyOrS (a b : Option String) : Option String :=
  match a with
  | some s => if s = "" then b else some s
  | none => b

/-- `team_page.num`: coerce a score/shot cell to a number, `0` for
missing (`None`), empty or unparseable values.  Every branch of the Python
helper returns an `int` or `float`, never `None`. -/
def pyNum (v : Option Int) : Int :=
  v.getD 0

/-- Win/draw/loss tallies. -/
structure TeamRecord where
  wins : Nat
  draws : Nat
  losses : Nat
deriving DecidableEq

/-- The record loop of `team_page`: select the rows whose home or away slug
equals `team_slug`, coerce both scores with `num`, and tally the result.
The source guards the tally with
`isinstance(goals_for, (int, float)) and isinstance(goals_against, (int, float))`,
but `num` always returns a number, so the guard is vacuous and every
selected match is tallied — including ones with missing scores, despite the
comment "Only count result if both scores present". -/
def teamRecord (rows : List MatchRow) (teamSlug : String) : TeamRecord :=
  rows.foldl
    (fun acc row =>
      let slugHome := slugify ((pyOrS row.home_team_short row.home_team_full).getD "")
      let slugAway := slugify ((pyOrS row.away_team_short row.away_team_full).getD "")
      if slugHome = teamSlug ∨ slugAway = teamSlug then
        let isHome := slugHome = teamSlug
        let goalsFor := pyNum (if isHome then row.home_team_score else row.away_team_score)
        let goalsAgainst := pyNum (if isHome then row.away_team_score else row.home_team_score)
        if goalsFor > goalsAgainst then { acc with wins := acc.wins + 1 }
        else if goalsFor = goalsAgainst then { acc with draws := acc.draws + 1 }
        else { acc with losses := acc.losses + 1 }
      else acc)
    { wins := 0, draws := 0, losses := 0 }

/-- The record the spec (and the source's own comment) intends.  Modelled
from the spec: "a match counts toward the record only when both participant
scores are non-null; equal scores → draw; higher score → win for that
side" — a match with any missing score is skipped. -/
def teamRecordIntended (rows : List MatchRow) (teamSlug : String) : TeamRecord :=
  rows.foldl
    (fun acc row =>
      let slugHome := slugify ((pyOrS row.home_team_short row.home_team_full).getD "")
      let slugAway := slugify ((pyOrS row.away_team_short row.away_team_full).getD "")
      if slugHome = teamSlug ∨ slugAway = teamSlug then
        let isHome := slugHome = teamSlug
        match (if isHome then row.home_team_score else row.away_team_score),
              (if isHome then row.away_team_score else row.home_team_score) with
        | some goalsFor, some goalsAgainst =>
          if goalsFor > goalsAgainst then { acc with wins := acc.wins + 1 }
          else if goalsFor = goalsAgainst then { acc with draws := acc.draws + 1 }
          else { acc with losses := acc.losses + 1 }
        | _, _ => acc
      else acc)
    { wins := 0, draws := 0, losses := 0 }

/-! ## Position classification (`weekly_player_data.py`) -/

/-- Python `s.count(pat)` for a nonempty pattern: non-overlapping
occurrences, scanning left to right; `skip` counts characters still to be
consumed by the previous match. -/
def countOccAux (pat : List Char) : Nat → List Char → Nat
  | _, [] => 0
  | Nat.succ k, _ :: rest => countOccAux pat k rest
  | 0, c :: rest =>
    if pat ≠ [] ∧ pat.isPrefixOf (c :: rest) then
      countOccAux pat (pat.length - 1) rest + 1
    else
      countOccAux pat 0 rest

def countOcc (pat s : List Char) : Nat :=
  countOccAux pat 0 s

/-- Sum of `up.count(k)` over the keyword list of one coarse label. -/
def countKeywords (up : String) (keys : List String) : Nat :=
  (keys.map (fun k => countOcc k.data up.data)).sum

/-- Python `max(counts, key=counts.get)`: the first key, in dict insertion
order, whose count is maximal (later keys replace only on a strictly
greater count). -/
def argmaxFirst (first : String × Nat) : List (String × Nat) → String
  | [] => first.1
  | p :: rest => if p.2 > first.2 then argmaxFirst p rest else argmaxFirst first rest

/-- `dominant_position_single`: classify one raw position tag by counting
keyword occurrences in its upper-cased form (a tag matching several
keywords counts toward each label); `Unknown` for null/empty tags or when
no keyword occurs.  The `position_keywords` dict iterates in insertion
order: Midfielder, Defender, Forward, Goalkeeper. -/
def dominant_position_single (pos : Option String) : String :=
  match pos with
  | none => "Unknown"
  | some p =>
    if p.length = 0 then "Unknown"
    else
      let up := upperStr p
      let cM := countKeywords up ["M", "MIDFIELDER"]
      let cD := countKeywords up ["D", "DEFENDER"]
      let cF := countKeywords up ["F", "FORWARD"]
      let cG := countKeywords up ["G", "GK", "GOALKEEPER"]
      if cM = 0 ∧ cD = 0 ∧ cF = 0 ∧ cG = 0 then "Unknown"
      else argmaxFirst ("Midfielder", cM) [("Defender", cD), ("Forward", cF), ("Goalkeeper", cG)]

/-- `compute_dominant_position_over_games`: map every raw tag to its coarse
label, take the plurality label, and break count ties by the fixed
`POS_TIEBREAK` priority Goalkeeper > Defender > Midfielder > Forward >
Unknown.  (`value_counts` lists only occurring labels; a label that does
not occur has count `0 < max` for a non-empty series, so testing the five
labels in priority order against the maximum is equivalent.) -/
def compute_dominant_position_over_games (ps : List (Option String)) : String :=
  if ps.isEmpty then "Unknown"
  else
    let labels := ps.map dominant_position_single
    let m := List.foldl max 0
      [labels.count "Midfielder", labels.count "Defender", labels.count "Forward",
       labels.count "Goalkeeper", labels.count "Unknown"]
    if labels.count "Goalkeeper" = m then "Goalkeeper"
    else if labels.count "Defender" = m then "Defender"
    else if labels.count "Midfielder" = m then "Midfielder"
    else if labels.count "Forward" = m then "Forward"
    else "Unknown"

/-! ## Score display formatting (`AmericaScoutedApp.clean_score`)

Python float values are modelled as exact rationals; `str(float)` is
modelled by the exact terminating decimal expansion, which coincides with
Python's shortest round-trip representation on every value the pipeline
formats (scores are small dyadic rationals).  A parsed string value is kept
as an un-normalised numerator/denominator pair so that every branch
evaluates by kernel reduction; the denominator is always a power of ten,
whose expansion always terminates.  `float('inf')`/`float('nan')` word
parses and exponent notation are outside the model. -/

/-- A scalar cell as `clean_score` receives it: null (Python `None` or a
pandas NaN, i.e. `pd.isna` is true), a string, or a numeric value. -/
inductive PyScalar
  | null
  | str (s : String)
  | num (q : ℚ)
deriving DecidableEq

/-- Smallest `k ≤ 32` with `den ∣ 10 ^ k`: the scale of the terminating
decimal expansion, when one exists. -/
def decScale (den : ℕ) : Option ℕ :=
  (List.range 33).find? (fun k => 10 ^ k % den = 0)

/-- Fraction digits: `fp` padded to `k` digits, trailing zeros stripped,
`"0"` when nothing remains (`str(2.0) = "2.0"`). -/
def fracDigits (fp k : ℕ) : String :=
  let s := toString fp
  let padded := List.replicate (k - s.length) '0' ++ s.data
  let trimmed := (padded.reverse.dropWhile (· == '0')).reverse
  if trimmed.isEmpty then "0" else String.mk trimmed

/-- `str(float(n/d))` for a value with a terminating decimal expansion
(`d ≠ 0`; the fallback branch is unreachable for the denominators this
development produces). -/
def pyFloatStrND (n : Int) (d : Nat) : String :=
  match decScale d with
  | some k =>
    let scaled := n.natAbs * 10 ^ k / d
    let sign := if n < 0 then "-" else ""
    sign ++ toString (scaled / 10 ^ k) ++ "." ++ fracDigits (scaled % 10 ^ k) k
  | none => toString n ++ "/" ++ toString d

/-- `float(str)` parsing, as an exact (numerator, denominator) pair with
denominator `10 ^ (number of fraction digits)`: optional surrounding
whitespace and sign, digits with at most one decimal point, at least one
digit overall; anything else fails. -/
def parsePyFloat (s : String) : Option (Int × Nat) :=
  let t := (trimStr s).data
  let signBody : Int × List Char :=
    match t with
    | '-' :: rest => (-1, rest)
    | '+' :: rest => (1, rest)
    | _ => (1, t)
  let sign := signBody.1
  let body := signBody.2
  let ip := body.takeWhile Char.isDigit
  let rest := body.dropWhile Char.isDigit
  let digitsVal : List Char → ℕ := fun ds => ds.foldl (fun a c => a * 10 + (c.toNat - '0'.toNat)) 0
  match rest with
  | [] => if ip.isEmpty then none else some (sign * digitsVal ip, 1)
  | '.' :: fr =>
    if fr.all Char.isDigit ∧ ¬(ip.isEmpty ∧ fr.isEmpty) then
      some (sign * (digitsVal ip * 10 ^ fr.length + digitsVal fr), 10 ^ fr.length)
    else none
  | _ => none

/-- `AmericaScoutedApp.clean_score`: `'-'` when `pd.isna(score)` or the
string form is empty/blank, else `float(score)`; whole values
(`float.is_integer()`) print as `str(int(v))`, others as `str(float(v))`;
a failed parse (`ValueError`/`TypeError`) yields `'-'`.  Total by
construction — every branch returns a string. -/
def clean_score : PyScalar → String
  | .null => "-"
  | .str s =>
    if trimStr s = "" then "-"
    else
      match parsePyFloat s with
      | none => "-"
      | some (n, d) => if n % (d : Int) = 0 then toString (n / (d : Int)) else pyFloatStrND n d
  | .num q => if q.den = 1 then toString q.num else pyFloatStrND q.num q.den


/-! ## Concrete snapshot fixtures

Small concrete snapshot files used to instantiate the claims: a single
player ("Ava Lee" of team "Tech", men) across up to three collection
weeks, and a handful of match rows. -/

def exStats (g a : Int) : PStats :=
  { matchesPlayed := some 1, minutesPlayed := some 90, goals := some g, assists := some a,
    shots := some 2, shotsOnTarget := some 1, yellowCards := some 0, redCards := some 0,
    saves := some 0, goalsAgainst := some 0, foulsWon := some 0 }

def exPlayerRow (d dp : String) (g a : Int) : PlayerRow :=
  { name := "Ava Lee", team := "Tech", gender := "men", division := some d,
    dominantPosition := some dp, stats := exStats g a }

def exWeek (code : String) (rows : List PlayerRow) : Week :=
  { code := code, files := fun g => if g = "men" then some rows else none }

/-- Three weekly files, all with scraped division `d1`; the weekly
`Dominant Position` tags are Defender, Defender, Midfielder. -/
def c1weeksInit : List Week :=
  [exWeek "20250907" [exPlayerRow "d1" "Defender" 1 0],
   exWeek "20250914" [exPlayerRow "d1" "Defender" 0 1]]

def c1week3 : Week :=
  exWeek "20250921" [exPlayerRow "d1" "Midfielder" 2 0]

def c1weeks : List Week :=
  c1weeksInit ++ [c1week3]

def c1keyD1 : PKey :=
  { name := "Ava Lee", team := "Tech", gender := "men", division := "d1" }

def c1witnessRow : AggRow :=
  mkAgg (combinedRows c1weeks "20250921" "men") c1keyD1

def c3row1 : AggRow :=
  mkAgg (combinedRows c1weeks "20250907" "men") c1keyD1

def c3row2 : AggRow :=
  mkAgg (combinedRows c1weeks "20250921" "men") c1keyD1

/-- Two weekly files whose scraped division changes from `d1` to `d2`
between weeks while the team's conference ("acc") maps to `d1`. -/
def c10weeks : List Week :=
  [exWeek "20250907" [exPlayerRow "d1" "Defender" 1 0],
   exWeek "20250914" [exPlayerRow "d2" "Defender" 2 0]]

/-- A fully populated match row for team "Tech" (ACC) against "State"
(Big East). -/
def exMatchTech : MatchRow :=
  { gender := some "men", division := some "d1",
    home_team_short := some "Tech", home_team_full := some "Tech University",
    away_team_short := some "State", away_team_full := some "State College",
    home_team_score := some 2, away_team_score := some 1,
    home_shots := some 10, away_shots := some 8, home_sot := some 5, away_sot := some 3,
    home_conference := some "ACC", away_conference := some "Big East",
    boxscore_id := some "12345" }

/-- A cross-division fixture: home conference maps to d1, away to d2. -/
def exMatchCross : MatchRow :=
  { exMatchTech with away_conference := some "cacc", boxscore_id := some "777" }

/-- A second scrape pass of the same contest (`boxscore_id` "12345") with a
diverging score cell. -/
def exMatchDup : MatchRow :=
  { exMatchTech with home_team_score := some 3 }

/-- A fixture between "Alpha" and "Beta" whose scores are both missing
(an unplayed or in-progress game). -/
def exMatchMissingScores : MatchRow :=
  { gender := some "men", division := none,
    home_team_short := some "Alpha", home_team_full := none,
    away_team_short := some "Beta", away_team_full := none,
    home_team_score := none, away_team_score := none,
    home_shots := none, away_shots := none, home_sot := none, away_sot := none,
    home_conference := none, away_conference := none, boxscore_id := some "1" }

/-! ## Helper lemmas -/

/-- A successful association-list lookup returns one of the stored values. -/
theorem lookup_mem_snd {α β : Type} [BEq α] :
    ∀ {l : List (α × β)} {a : α} {b : β}, l.lookup a = some b → b ∈ l.map Prod.snd := by
  intro l
  induction l with
  | nil => intro a b h; simp [List.lookup] at h
  | cons p rest ih =>
    intro a b h
    rw [List.lookup] at h
    by_cases hk : a == p.1
    · rw [hk] at h
      simp only [List.map_cons, List.mem_cons]
      exact Or.inl (Option.some.inj h).symm
    · have hk' : (a == p.1) = false := by simpa using hk
      rw [hk'] at h
      simp only [List.map_cons, List.mem_cons]
      exact Or.inr (ih h)

/-- Every row of `load_cumulative_data` is the aggregate of some group key. -/
theorem load_cumulative_mem {weeks : List Week} {endCode gender : String} {r : AggRow}
    (hr : r ∈ load_cumulative_data weeks endCode gender) :
    ∃ k, r = mkAgg (combinedRows weeks endCode gender) k := by
  unfold load_cumulative_data at hr
  obtain ⟨k, _, he⟩ := List.mem_map.mp hr
  exact ⟨k, he.symm⟩

/-- Reading one summed column out of an aggregated row. -/
theorem mkAgg_stats_get (rows : List PlayerRow) (k : PKey) (c : StatCol) :
    (mkAgg rows k).stats.get c = sumStat rows k c := by
  cases c <;> rfl

theorem sumStat_append (a b : List PlayerRow) (k : PKey) (c : StatCol) :
    sumStat (a ++ b) k c = sumStat a k c + sumStat b k c := by
  simp [sumStat, List.filter_append]

theorem sumStat_nonneg {rows : List PlayerRow} {k : PKey} {c : StatCol}
    (h : ∀ r ∈ rows, 0 ≤ statVal r c) : 0 ≤ sumStat rows k c := by
  apply List.sum_nonneg
  intro x hx
  obtain ⟨r, hr, he⟩ := List.mem_map.mp hx
  exact he ▸ h r (List.mem_filter.mp hr).1

/-- Transitivity of the Python lexicographic string comparison. -/
theorem charsLe_trans : ∀ {a b c : List Char},
    charsLe a b = true → charsLe b c = true → charsLe a c = true := by
  intro a
  induction a with
  | nil => intro b c _ _; rfl
  | cons x xs ih =>
    intro b c h1 h2
    cases b with
    | nil => simp [charsLe] at h1
    | cons y ys =>
      cases c with
      | nil => simp [charsLe] at h2
      | cons z zs =>
        rw [charsLe] at h1 h2 ⊢
        by_cases hxy : x.toNat < y.toNat
        · by_cases hyz : y.toNat < z.toNat
          · rw [if_pos (by omega : x.toNat < z.toNat)]
          · rw [if_neg hyz] at h2
            by_cases hyz2 : y.toNat = z.toNat
            · rw [if_pos (by omega : x.toNat < z.toNat)]
            · rw [if_neg hyz2] at h2; exact absurd h2 (by simp)
        · rw [if_neg hxy] at h1
          by_cases hxy2 : x.toNat = y.toNat
          · rw [if_pos hxy2] at h1
            by_cases hyz : y.toNat < z.toNat
            · rw [if_pos (by omega : x.toNat < z.toNat)]
            · rw [if_neg hyz] at h2
              by_cases hyz2 : y.toNat = z.toNat
              · rw [if_neg (by omega : ¬ x.toNat < z.toNat), if_pos (by omega : x.toNat = z.toNat)]
                rw [if_pos hyz2] at h2
                exact ih h1 h2
              · rw [if_neg hyz2] at h2; exact absurd h2 (by simp)
          · rw [if_neg hxy2] at h1; exact absurd h1 (by simp)

theorem pyStrLe_trans {a b c : String} (h1 : pyStrLe a b = true) (h2 : pyStrLe b c = true) :
    pyStrLe a c = true :=
  charsLe_trans h1 h2

/-! ## Claims -/

/-- C8: dominant-position plurality ties are broken by the fixed priority
order Goalkeeper > Defender > Midfielder > Forward > Unknown — for every
list of raw position tags whose classifications are exactly "Defender" and
"Midfielder" in equal positive numbers, `compute_dominant_position_over_games`
resolves to "Defender", not "Midfielder". -/
theorem C8_tiebreak_defender (ps : List (Option String))
    (hall : ∀ p ∈ ps, dominant_position_single p = "Defender" ∨
      dominant_position_single p = "Midfielder")
    (heq : (ps.map dominant_position_single).count "Defender" =
      (ps.map dominant_position_single).count "Midfielder")
    (hpos : 0 < (ps.map dominant_position_single).count "Defender") :
    compute_dominant_position_over_games ps = "Defender" := by
  have hne : ps.isEmpty = false := by
    cases ps with
    | nil => simp at hpos
    | cons a l => rfl
  have hzero : ∀ lab : String, lab ≠ "Defender" → lab ≠ "Midfielder" →
      (ps.map dominant_position_single).count lab = 0 := by
    intro lab hD hM
    rw [List.count_eq_zero]
    intro hmem
    obtain ⟨p, hp, hpe⟩ := List.mem_map.mp hmem
    rcases hall p hp with h | h
    · exact hD (hpe.symm.trans h)
    · exact hM (hpe.symm.trans h)
  have hGK := hzero "Goalkeeper" (by decide) (by decide)
  have hF := hzero "Forward" (by decide) (by decide)
  have hU := hzero "Unknown" (by decide) (by decide)
  unfold compute_dominant_position_over_games
  rw [hne]
  simp only [Bool.false_eq_true, if_false]
  rw [hGK, hF, hU, ← heq]
  have hm : List.foldl max 0
      [(ps.map dominant_position_single).count "Defender",
       (ps.map dominant_position_single).count "Defender", 0, 0, 0] =
      (ps.map dominant_position_single).count "Defender" := by
    simp only [List.foldl]
    rw [Nat.zero_max, Nat.max_self, Nat.max_zero, Nat.max_zero, Nat.max_zero]
  rw [hm]
  rw [if_neg (by omega), if_pos rfl]

/-- C8 witness: the tags `["D", "M"]` classify to one Defender and one
Midfielder and resolve to "Defender". -/
theorem C8_witness :
    compute_dominant_position_over_games [some "D", some "M"] = "Defender" :=
  C8_tiebreak_defender [some "D", some "M"] (by decide) (by decide) (by decide)

/-- C9: `clean_score` is total and deterministic — it is a function defined
on every scalar, returning `'-'` for null, empty/blank or unparseable
values, the integer string for whole-number values, and the decimal string
otherwise; in particular `clean_score(2.0) = "2"` and
`clean_score(2.5) = "2.5"`. -/
theorem C9_clean_score_spec :
    clean_score .null = "-" ∧
    clean_score (.str "") = "-" ∧
    (∀ s : String, trimStr s = "" → clean_score (.str s) = "-") ∧
    (∀ s : String, parsePyFloat s = none → clean_score (.str s) = "-") ∧
    (∀ q : ℚ, q.den = 1 → clean_score (.num q) = toString q.num) ∧
    (∀ q : ℚ, q.den ≠ 1 → clean_score (.num q) = pyFloatStrND q.num q.den) ∧
    (∀ q : ℚ, q.num = 2 → q.den = 1 → clean_score (.num q) = "2") ∧
    (∀ q : ℚ, q.num = 5 → q.den = 2 → clean_score (.num q) = "2.5") := by
  refine ⟨rfl, by decide, ?_, ?_, ?_, ?_, ?_, ?_⟩
  · intro s h
    simp [clean_score, h]
  · intro s h
    by_cases ht : trimStr s = ""
    · simp [clean_score, ht]
    · simp [clean_score, ht, h]
  · intro q h
    simp [clean_score, h]
  · intro q h
    simp [clean_score, h]
  · intro q hn hd
    simp only [clean_score, hd, hn, if_pos]
    decide
  · intro q hn hd
    rw [clean_score, hd, hn]
    decide

/-- C9 witness: concrete scores exercising every case of the claim. -/
theorem C9_witness :
    clean_score (.str "abc") = "-" ∧
    clean_score (.str "   ") = "-" ∧
    clean_score (.num 2) = "2" ∧
    clean_score (.num ((5 : ℚ) / 2)) = "2.5" :=
  ⟨C9_clean_score_spec.2.2.2.1 "abc" (by decide),
   C9_clean_score_spec.2.2.1 "   " (by decide),
   C9_clean_score_spec.2.2.2.2.2.2.1 2 (by decide) (by decide),
   C9_clean_score_spec.2.2.2.2.2.2.2 ((5 : ℚ) / 2) (by norm_num) (by norm_num)⟩

/-- C2: for a team with a manual division override whose resolved conference
maps through the conference→division table, the conference-derived division
overwrites the override (precedence of step (c) over step (a)). -/
theorem C2_conference_beats_override (teamToConf : List (String × String))
    (team : String) (division : Option String) (c d : String)
    (_hover : (division_corrections team).isSome)
    (hconf : teamToConf.lookup team = some c)
    (hmap : conference_division_map.lookup (lowerStr (trimStr c)) = some d) :
    reconcileDivision teamToConf team division = some (lowerStr d) := by
  unfold reconcileDivision
  rw [hconf]
  simp only [normConf]
  rw [hmap]
  simp

/-- C2 witness: a player row for "Westmont" (overridden to "d2") whose
derived conference "acc" maps to "d1" ends reconciliation with "d1". -/
theorem C2_witness :
    reconcileDivision [("Westmont", "acc")] "Westmont" (some "d2") = some "d1" :=
  (C2_conference_beats_override [("Westmont", "acc")] "Westmont" (some "d2") "acc" "d1"
    (by decide) (by decide) (by decide)).trans (by decide)

/-- C7: the `'naia'` fallback is applied exactly to rows whose conference is
unmapped (missing, blank, or absent from the table) and whose division is
still null after the earlier steps; rows that already carry a division keep
it (lower-cased), and rows with a mapped conference always receive the
mapped division — never the fallback. -/
theorem C7_naia_fallback (teamToConf : List (String × String)) (team : String)
    (division : Option String) :
    (conference_division_map.lookup (normConf (teamToConf.lookup team)) = none →
      overriddenDivision team division = none →
      reconcileDivision teamToConf team division = some "naia") ∧
    (∀ v, conference_division_map.lookup (normConf (teamToConf.lookup team)) = none →
      overriddenDivision team division = some v →
      reconcileDivision teamToConf team division = some (lowerStr v)) ∧
    (∀ m, conference_division_map.lookup (normConf (teamToConf.lookup team)) = some m →
      reconcileDivision teamToConf team division = some (lowerStr m)) ∧
    (∀ m, conference_division_map.lookup (normConf (teamToConf.lookup team)) = some m →
      reconcileDivision teamToConf team division ≠ some "naia") := by
  refine ⟨?_, ?_, ?_, ?_⟩
  · intro hmap hdiv
    simp only [reconcileDivision]
    rw [hmap, hdiv]
    decide
  · intro v hmap hdiv
    simp only [reconcileDivision]
    rw [hmap, hdiv]
    simp
  · intro m hmap
    simp only [reconcileDivision]
    rw [hmap]
    simp
  · intro m hmap
    simp only [reconcileDivision]
    rw [hmap]
    simp only [Option.map_some]
    have hv : m ∈ conference_division_map.map Prod.snd := lookup_mem_snd hmap
    have : ∀ x ∈ conference_division_map.map Prod.snd, lowerStr x ≠ "naia" := by decide
    intro hcon
    exact this m hv (by simpa using hcon)

/-- C7 witness: an unmapped team with no prior division falls back to
"naia"; one with a scraped division keeps it; a mapped conference wins. -/
theorem C7_witness :
    reconcileDivision [] "Unmapped FC" none = some "naia" ∧
    reconcileDivision [] "Unmapped FC" (some "D3") = some "d3" ∧
    reconcileDivision [("Mapped FC", "wcc")] "Mapped FC" (some "d3") = some "d1" :=
  ⟨(C7_naia_fallback [] "Unmapped FC" none).1 (by decide) (by decide),
   ((C7_naia_fallback [] "Unmapped FC" (some "D3")).2.1 "D3" (by decide) (by decide)).trans (by decide),
   ((C7_naia_fallback [("Mapped FC", "wcc")] "Mapped FC" (some "d3")).2.2.1 "d1" (by decide)).trans (by decide)⟩

/-- Unfolding `recomputedDivision` when both conferences map. -/
theorem recomputedDivision_eq (hc ac : Option String) (dh da : String)
    (h1 : conference_division_map.lookup (normConf hc) = some dh)
    (h2 : conference_division_map.lookup (normConf ac) = some da) :
    recomputedDivision hc ac = if dh = da then dh else "" := by
  unfold recomputedDivision
  rw [h1, h2]

/-- C4: every aggregated match carries the recomputed division — the common
mapped division when both sides' conferences map and agree, and the empty
string otherwise — never the scraped value; in particular, when the two
sides map to distinct divisions the match's division is `''`. -/
theorem C4_match_division (files : List (List MatchRow)) (gender : String) (r : MatchRow)
    (hr : r ∈ load_match_data files gender) :
    r.division = some (recomputedDivision r.home_conference r.away_conference) ∧
    (∀ dh da, conference_division_map.lookup (normConf r.home_conference) = some dh →
      conference_division_map.lookup (normConf r.away_conference) = some da →
      r.division = some (if dh = da then dh else "")) := by
  unfold load_match_data at hr
  obtain ⟨pre, _, he⟩ := List.mem_map.mp hr
  have hdiv : r.division = some (recomputedDivision r.home_conference r.away_conference) := by
    rw [← he]; rfl
  refine ⟨hdiv, ?_⟩
  intro dh da hdh hda
  rw [hdiv, recomputedDivision_eq _ _ _ _ hdh hda]

/-- C4 witness: a match whose home conference maps to "d1" and away
conference maps to "d2" ends with division `''`. -/
theorem C4_witness :
    (recomputeDivisionRow exMatchCross).division = some "" :=
  ((C4_match_division [[exMatchCross]] "men" (recomputeDivisionRow exMatchCross)
      (by decide)).2 "d1" "d2" (by decide) (by decide)).trans (by decide)

/-- Appending a row whose `boxscore_id` was already seen (in the accumulator
or earlier in the list) does not change the dedup result. -/
theorem dedup_append_dup (seen : List (Option String)) (l : List MatchRow) (r : MatchRow)
    (h : r.boxscore_id ∈ seen ∨ ∃ r0 ∈ l, r0.boxscore_id = r.boxscore_id) :
    dedupByBoxscoreId seen (l ++ [r]) = dedupByBoxscoreId seen l := by
  induction l generalizing seen with
  | nil =>
    rcases h with h | ⟨r0, hr0, _⟩
    · simp [dedupByBoxscoreId, h]
    · simp at hr0
  | cons a l ih =>
    simp only [List.cons_append, dedupByBoxscoreId]
    by_cases ha : a.boxscore_id ∈ seen
    · rw [if_pos ha, if_pos ha]
      apply ih
      rcases h with h | ⟨r0, hr0, he⟩
      · exact Or.inl h
      · rcases List.mem_cons.mp hr0 with rfl | hm
        · exact Or.inl (he ▸ ha)
        · exact Or.inr ⟨r0, hm, he⟩
    · rw [if_neg ha, if_neg ha]
      congr 1
      apply ih
      rcases h with h | ⟨r0, hr0, he⟩
      · exact Or.inl (List.mem_cons_of_mem _ h)
      · rcases List.mem_cons.mp hr0 with rfl | hm
        · exact Or.inl (he ▸ List.mem_cons_self _ _)
        · exact Or.inr ⟨r0, hm, he⟩

/-- C5: match aggregation is deterministic (a pure function of the snapshot
files), and appending an extra row whose `boxscore_id` equals that of an
earlier row leaves the aggregated output unchanged (first occurrence
wins). -/
theorem C5_dedup_idempotent (files : List (List MatchRow)) (gender : String) (r : MatchRow)
    (hdup : ∃ r0 ∈ (files.map (genderFilter gender)).flatten,
      r0.boxscore_id = r.boxscore_id) :
    load_match_data files gender = load_match_data files gender ∧
    load_match_data (files ++ [[r]]) gender = load_match_data files gender := by
  refine ⟨rfl, ?_⟩
  simp only [load_match_data]
  have hflat : ((files ++ [[r]]).map (genderFilter gender)).flatten =
      (files.map (genderFilter gender)).flatten ++ genderFilter gender [r] := by
    simp
  rw [hflat]
  congr 1
  by_cases hp : (match r.gender with
    | some g => decide (lowerStr g = lowerStr gender)
    | none => false) = true
  · have hg : genderFilter gender [r] = [r] := by
      simp only [genderFilter, List.filter, hp]
    rw [hg]
    exact dedup_append_dup [] _ r (Or.inr hdup)
  · have hg : genderFilter gender [r] = [] := by
      simp only [genderFilter, List.filter]
      rw [Bool.eq_false_iff.mpr hp]
    rw [hg, List.append_nil]

/-- C5 witness: a second scrape pass of boxscore "12345" with a diverging
score cell does not change the aggregated matches. -/
theorem C5_witness :
    load_match_data ([[exMatchTech]] ++ [[exMatchDup]]) "men" =
      load_match_data [[exMatchTech]] "men" :=
  (C5_dedup_idempotent [[exMatchTech]] "men" exMatchDup
    ⟨exMatchTech, by decide, by decide⟩).2

/-- C6 (code bug): the `team_page` record loop tallies a match even when both
scores are missing — `num()` coerces the missing cells to 0 and the
`isinstance` guard is vacuous, so the unplayed Alpha–Beta fixture is
counted as a 0–0 draw, contradicting the source's own comment
"Only count result if both scores present" (and the spec); the intended
record skips it. -/
theorem C6_missing_scores_still_counted :
    exMatchMissingScores.home_team_score = none ∧
    exMatchMissingScores.away_team_score = none ∧
    teamRecord [exMatchMissingScores] "Alpha" = { wins := 0, draws := 1, losses := 0 } ∧
    teamRecordIntended [exMatchMissingScores] "Alpha" = { wins := 0, draws := 0, losses := 0 } := by
  decide

/-- C10: the reconciled key is not unique — with a scraped division that
changes between weeks and a conference mapping to a single division, the
`/players` pipeline emits two distinct rows sharing the reconciled key
(Name, Team, Gender, Division), because grouping used the scraped division
and rows are never re-merged after reconciliation. -/
theorem C10_reconciled_key_not_unique :
    (playersReconciled c10weeks "20250921" "men" [[exMatchTech]]).map
        (fun r => (r.name, r.team, r.gender, r.division)) =
      [("Ava Lee", "Tech", "men", some "d1"), ("Ava Lee", "Tech", "men", some "d1")] ∧
    (playersReconciled c10weeks "20250921" "men" [[exMatchTech]]).Nodup := by
  decide

/-- C1 counterexample: over the weekly tags Defender, Defender, Midfielder
the plurality vote yields "Defender", but the cumulative aggregation
reports "Midfielder" — the most recent week's tag
(`groupby(...)['Dominant Position'].last()`), so the claimed plurality
computation does not hold of `load_cumulative_data`. -/
theorem C1_counterexample :
    compute_dominant_position_over_games
        [some "Defender", some "Defender", some "Midfielder"] = "Defender" ∧
    (load_cumulative_data c1weeks "20250921" "men").map (fun r => r.dominantPosition) =
      [some "Midfielder"] ∧
    some "Midfielder" ≠ some "Defender" := by
  decide

theorem combinedRows_append (l1 l2 : List Week) (endCode gender : String) :
    combinedRows (l1 ++ l2) endCode gender =
      combinedRows l1 endCode gender ++ combinedRows l2 endCode gender := by
  induction l1 with
  | nil => rfl
  | cons w ws ih =>
    simp only [List.cons_append, combinedRows, List.append_eq, ih, List.append_assoc]

/-- C1 (amended): the Dominant Position attached by `load_cumulative_data`
is the most recent non-null weekly `Dominant Position` value of the group —
appending a further week whose file ends with a tagged row for the group
makes that tag the reported one, regardless of all earlier weeks' tags. -/
theorem C1_amended_last_tag_wins (weeks : List Week) (w : Week) (fileInit : List PlayerRow)
    (rlast : PlayerRow) (endCode gender : String) (k : PKey) (t : String) (r : AggRow)
    (hcode : pyStrLe w.code endCode = true)
    (hfile : w.files gender = some (fileInit ++ [rlast]))
    (hkey : rowKey rlast = some k)
    (htag : rlast.dominantPosition = some t)
    (hr : r ∈ load_cumulative_data (weeks ++ [w]) endCode gender)
    (hname : r.name = k.name) (hteam : r.team = k.team)
    (hgender : r.gender = k.gender) (hdiv : r.division = some k.division) :
    r.dominantPosition = some t := by
  obtain ⟨k', he⟩ := load_cumulative_mem hr
  have hk : k' = k := by
    rw [he] at hname hteam hgender hdiv
    cases k'; cases k
    simp_all [mkAgg]
  subst hk
  rw [he]
  have hrows : combinedRows (weeks ++ [w]) endCode gender =
      combinedRows weeks endCode gender ++ (fileInit ++ [rlast]) := by
    rw [combinedRows_append]
    congr 1
    simp [combinedRows, hcode, hfile]
  rw [hrows]
  show lastDominantPosition (combinedRows weeks endCode gender ++ (fileInit ++ [rlast])) k' = some t
  unfold lastDominantPosition
  rw [List.filter_append, List.filter_append]
  have h5 : List.filter (fun r => decide (rowKey r = some k')) [rlast] = [rlast] := by
    simp [List.filter, hkey]
  rw [h5, List.filterMap_append, List.filterMap_append]
  have h6 : List.filterMap PlayerRow.dominantPosition [rlast] = [t] := by
    simp [List.filterMap, htag]
  rw [h6, ← List.append_assoc]
  exact List.getLast?_concat _

/-- C1 amended witness: with weekly tags Defender, Defender, Midfielder the
reported Dominant Position is the last week's "Midfielder". -/
theorem C1_amended_witness : c1witnessRow.dominantPosition = some "Midfielder" :=
  C1_amended_last_tag_wins c1weeksInit c1week3 [] (exPlayerRow "d1" "Midfielder" 2 0)
    "20250921" "men" c1keyD1 "Midfielder" c1witnessRow
    (by decide) (by decide) (by decide) (by decide) (by decide) rfl rfl rfl rfl

theorem sumStat_combined_mono (weeks : List Week) (w1 w2 gender : String) (k : PKey) (c : StatCol)
    (hw : pyStrLe w1 w2 = true)
    (hnn : ∀ w ∈ weeks, ∀ r ∈ (w.files gender).getD [], 0 ≤ statVal r c) :
    sumStat (combinedRows weeks w1 gender) k c ≤ sumStat (combinedRows weeks w2 gender) k c := by
  induction weeks with
  | nil => simp [combinedRows, sumStat]
  | cons w ws ih =>
    simp only [combinedRows]
    rw [sumStat_append, sumStat_append]
    have hih := ih (fun w' hw' r hr => hnn w' (List.mem_cons_of_mem _ hw') r hr)
    by_cases h1 : pyStrLe w.code w1 = true
    · have h2 : pyStrLe w.code w2 = true := pyStrLe_trans h1 hw
      rw [if_pos h1, if_pos h2]
      exact add_le_add_left hih _
    · rw [if_neg h1]
      have hblock : (0:Int) ≤
          sumStat (if pyStrLe w.code w2 = true then (w.files gender).getD [] else []) k c := by
        by_cases h2 : pyStrLe w.code w2 = true
        · rw [if_pos h2]
          exact sumStat_nonneg (fun r hr => hnn w (List.mem_cons_self _ _) r hr)
        · rw [if_neg h2]
          simp [sumStat]
      calc sumStat [] k c + sumStat (combinedRows ws w1 gender) k c
          = sumStat (combinedRows ws w1 gender) k c := by simp [sumStat]
        _ ≤ sumStat (combinedRows ws w2 gender) k c := hih
        _ ≤ sumStat (if pyStrLe w.code w2 = true then (w.files gender).getD [] else []) k c +
              sumStat (combinedRows ws w2 gender) k c := le_add_of_nonneg_left hblock

/-- C3: cumulative monotonicity — given the spec precondition that every
counting stat parsed from the snapshot rows is non-negative (missing cells
coerce to 0), the totals that `load_cumulative_data` reports for the same
(Name, Team, Gender, Division) group can only grow as the end week moves
forward (`w1 <= w2` on the `YYYYMMDD` codes). -/
theorem C3_cumulative_monotone (weeks : List Week) (w1 w2 gender : String) (c : StatCol)
    (r1 r2 : AggRow)
    (hw : pyStrLe w1 w2 = true)
    (hnn : ∀ w ∈ weeks, ∀ r ∈ (w.files gender).getD [], ∀ c' : StatCol, 0 ≤ statVal r c')
    (h1 : r1 ∈ load_cumulative_data weeks w1 gender)
    (h2 : r2 ∈ load_cumulative_data weeks w2 gender)
    (hname : r1.name = r2.name) (hteam : r1.team = r2.team)
    (hgender : r1.gender = r2.gender) (hdiv : r1.division = r2.division) :
    r1.stats.get c ≤ r2.stats.get c := by
  obtain ⟨k1, he1⟩ := load_cumulative_mem h1
  obtain ⟨k2, he2⟩ := load_cumulative_mem h2
  have hk : k1 = k2 := by
    rw [he1, he2] at hname hteam hgender hdiv
    cases k1; cases k2
    simp_all [mkAgg]
  subst hk
  rw [he1, he2, mkAgg_stats_get, mkAgg_stats_get]
  exact sumStat_combined_mono weeks w1 w2 gender k1 c hw
    (fun w hww r hr => hnn w hww r hr c)

/-- C3 witness: the goals total of "Ava Lee" through week 20250907 is at
most her total through week 20250921. -/
theorem C3_witness : c3row1.stats.get .goals ≤ c3row2.stats.get .goals :=
  C3_cumulative_monotone c1weeks "20250907" "20250921" "men" .goals c3row1 c3row2
    (by decide) (by decide) (by decide) (by decide) rfl rfl rfl rfl
